import Mathlib

/-!
Verification development for the comput3ai MCP plugin core
(`src/service.ts`, `src/utils/validation.ts`, `src/actions/readResourceAction.ts`).

The TypeScript code is shallowly embedded: JSON values are an inductive
`Json`, the MCP client / transport / clock are oracles packed into
environment records, and the stateful service methods become pure
functions from an explicit connection list to a new connection list plus
an event/effect trace.  String operations mirror the JavaScript ones on
the underlying character lists.
-/

/-- JSON values as produced and consumed by the plugin (integers suffice:
every numeric literal in the modelled code is an integer). -/
inductive Json where
  | null : Json
  | bool (b : Bool) : Json
  | num (n : Int) : Json
  | str (s : String) : Json
  | arr (elems : List Json) : Json
  | obj (fields : List (String × Json)) : Json
deriving Repr

/-- Two hexadecimal digits of a number below 256 (for control-character escapes). -/
def hexDigit (n : Nat) : Char :=
  if n < 10 then Char.ofNat (48 + n) else Char.ofNat (87 + n)

/-- JSON escaping of one character, as `JSON.stringify` performs it. -/
def escapeJsonChar (c : Char) : String :=
  if c = '"' then "\\\""
  else if c = '\\' then "\\\\"
  else if c = '\n' then "\\n"
  else if c = '\r' then "\\r"
  else if c = '\t' then "\\t"
  else if c = '\x08' then "\\b"
  else if c = '\x0c' then "\\f"
  else if c.toNat < 32 then
    String.mk ['\\', 'u', '0', '0', hexDigit (c.toNat / 16), hexDigit (c.toNat % 16)]
  else String.mk [c]

/-- JSON string literal (quotes plus escaped body), as `JSON.stringify` renders strings. -/
def escapeJsonString (s : String) : String :=
  "\"" ++ String.join (s.data.map escapeJsonChar) ++ "\""

mutual

/-- Compact rendering, modelling `JSON.stringify(v)`. -/
def Json.stringify : Json → String
  | .null => "null"
  | .bool true => "true"
  | .bool false => "false"
  | .num n => toString n
  | .str s => escapeJsonString s
  | .arr elems => "[" ++ Json.stringifyArrItems elems ++ "]"
  | .obj fields => "\x7b" ++ Json.stringifyObjItems fields ++ "\x7d"

def Json.stringifyArrItems : List Json → String
  | [] => ""
  | [x] => Json.stringify x
  | x :: y :: rest => Json.stringify x ++ "," ++ Json.stringifyArrItems (y :: rest)

def Json.stringifyObjItems : List (String × Json) → String
  | [] => ""
  | [(k, v)] => escapeJsonString k ++ ":" ++ Json.stringify v
  | (k, v) :: f :: rest =>
      escapeJsonString k ++ ":" ++ Json.stringify v ++ "," ++ Json.stringifyObjItems (f :: rest)

end

mutual

/-- Pretty rendering with the given accumulated indentation, modelling
`JSON.stringify(v, null, 2)`. -/
def Json.stringifyIndent (ind : String) : Json → String
  | .null => "null"
  | .bool true => "true"
  | .bool false => "false"
  | .num n => toString n
  | .str s => escapeJsonString s
  | .arr [] => "[]"
  | .arr (x :: rest) =>
      "[\n" ++ Json.stringifyIndentArr (ind ++ "  ") (x :: rest) ++ "\n" ++ ind ++ "]"
  | .obj [] => "\x7b\x7d"
  | .obj (f :: rest) =>
      "\x7b\n" ++ Json.stringifyIndentObj (ind ++ "  ") (f :: rest) ++ "\n" ++ ind ++ "\x7d"

def Json.stringifyIndentArr (ind : String) : List Json → String
  | [] => ""
  | [x] => ind ++ Json.stringifyIndent ind x
  | x :: y :: rest =>
      ind ++ Json.stringifyIndent ind x ++ ",\n" ++ Json.stringifyIndentArr ind (y :: rest)

def Json.stringifyIndentObj (ind : String) : List (String × Json) → String
  | [] => ""
  | [(k, v)] => ind ++ escapeJsonString k ++ ": " ++ Json.stringifyIndent ind v
  | (k, v) :: f :: rest =>
      ind ++ escapeJsonString k ++ ": " ++ Json.stringifyIndent ind v ++ ",\n" ++
        Json.stringifyIndentObj ind (f :: rest)

end

/-- `JSON.stringify(v, null, 2)`. -/
def Json.stringifyPretty (j : Json) : String := Json.stringifyIndent "" j

/-- JavaScript truthiness of a JSON value (used to model `x || fallback`). -/
def jsTruthy : Json → Bool
  | .null => false
  | .bool b => b
  | .num n => n != 0
  | .str s => s != ""
  | .arr _ => true
  | .obj _ => true

/-- `s.startsWith(pat)` on JavaScript strings. -/
def jsStartsWith (s pat : String) : Bool := pat.data.isPrefixOf s.data

/-- `s.slice(n)` / dropping the first `n` characters (used for
`uri.replace(prefixString, "")` when the pattern sits at position 0). -/
def jsDrop (s : String) (n : Nat) : String := String.mk (s.data.drop n)

/-- Whether `pat` occurs as a contiguous run inside `s` (helper for `jsIncludes`). -/
def listSearch (pat : List Char) : List Char → Bool
  | [] => pat.isEmpty
  | c :: rest => pat.isPrefixOf (c :: rest) || listSearch pat rest

/-- `s.includes(pat)` on JavaScript strings. -/
def jsIncludes (s pat : String) : Bool := listSearch pat.data s.data

/-- `s.charAt(0).toUpperCase() + s.slice(1)` (ASCII case mapping). -/
def capitalizeFirst (s : String) : String :=
  match s.data with
  | [] => ""
  | c :: rest => String.mk (c.toUpper :: rest)

/-- `x || fallback` for an optional JavaScript string (`undefined` and `""` are falsy). -/
def strOrElse (s : Option String) (fallback : String) : String :=
  match s with
  | none => fallback
  | some v => if v = "" then fallback else v

/-- `x || \x7b\x7d` for an optional JSON value (falsy values fall back to the empty object). -/
def jsonOrEmptyObj (j : Option Json) : Json :=
  match j with
  | none => Json.obj []
  | some v => if jsTruthy v then v else Json.obj []

/-! ## Data model (src/types.ts shapes as used by src/service.ts) -/

/-- A tool descriptor as fetched from the remote provider. -/
structure Tool where
  name : String
  description : Option String := none
  inputSchema : Option Json := none
  outputSchema : Option Json := none
deriving Repr

/-- A resource descriptor (real or synthesized). -/
structure Resource where
  uri : String
  name : String
  description : Option String := none
  mimeType : Option String := none
  templateUri : Option String := none
deriving Repr, DecidableEq

/-- A resource template descriptor.  The hard-coded calculator/weather template
constants carry zod schemas in the source; those are outside the `Json` model
and no claim inspects them, so they are stored as `none` here. -/
structure ResourceTemplate where
  uriTemplate : String
  name : String
  description : Option String := none
  inputSchema : Option Json := none
  outputSchema : Option Json := none
deriving Repr

/-- Connection status strings used by the service. -/
inductive ConnStatus where
  | connecting
  | connected
  | disconnected
deriving Repr, DecidableEq

/-- One server's configuration, with the fields the modelled code reads.
`disabled`, `timeout`, `timeoutInMillis` are optional exactly as in the
settings JSON. -/
structure McpServerConfig where
  type : String
  command : Option String := none
  url : Option String := none
  timeout : Option Nat := none
  timeoutInMillis : Option Nat := none
  disabled : Option Bool := none
deriving Repr, DecidableEq

/-- The JSON object a configuration denotes (`JSON.stringify` omits absent fields). -/
def McpServerConfig.toJson (c : McpServerConfig) : Json :=
  Json.obj
    ([("type", Json.str c.type)] ++
     (match c.command with | some s => [("command", Json.str s)] | none => []) ++
     (match c.url with | some s => [("url", Json.str s)] | none => []) ++
     (match c.timeout with | some n => [("timeout", Json.num n)] | none => []) ++
     (match c.timeoutInMillis with | some n => [("timeoutInMillis", Json.num n)] | none => []) ++
     (match c.disabled with | some b => [("disabled", Json.bool b)] | none => []))

/-- `JSON.stringify(config)`, the serialized form stored on a connection and
compared against to detect config drift. -/
def stringifyConfig (c : McpServerConfig) : String := (McpServerConfig.toJson c).stringify

/-- `config.type === "sse" && url?.includes("n8n.cloud") || url?.includes("n8n.io")`
(JavaScript precedence: `&&` binds tighter than `||`). -/
def isN8nServer (config : McpServerConfig) : Bool :=
  (config.type == "sse" &&
    (match config.url with | some u => jsIncludes u "n8n.cloud" | none => false)) ||
  (match config.url with | some u => jsIncludes u "n8n.io" | none => false)

/-- The `server` record of a connection.  `config` is the serialized
configuration string (`JSON.stringify(config)`); `configVal` is the
configuration value that string serializes, carried alongside so that
`JSON.parse(connection.server.config)` in `restartConnection` can be modelled
without a JSON parser (the parse/stringify round trip on configuration values).
`error` is the accumulated error text (`""` models the absent field) and
`disabled` models `connection.server.disabled` (`undefined`, hence `false`,
everywhere the source constructs a server record). -/
structure McpServer where
  name : String
  config : String
  configVal : McpServerConfig
  status : ConnStatus
  error : String := ""
  disabled : Bool := false
  tools : List Tool := []
  resources : List Resource := []
  resourceTemplates : List ResourceTemplate := []
deriving Repr

/-- A connection; the client and transport handles live in the environment
records, keyed by server name. -/
structure McpConnection where
  server : McpServer
deriving Repr

/-! ## Resource router (`McpService.readResource`) -/

/-- One entry of a `readResource` response. -/
structure ResourceContent where
  uri : String
  mimeType : Option String := none
  text : Option String := none
deriving Repr, DecidableEq

/-- The shape of `McpResourceResponse`. -/
structure McpResourceResponse where
  contents : List ResourceContent
deriving Repr, DecidableEq

/-- External effects a `readResource` dispatch can perform. -/
inductive EffectCall where
  | toolCall (serverName toolName : String) (args : Json)
  | nativeRead (serverName uri : String)
deriving Repr

/-- Oracles for the effects `readResource` can trigger: `callTool` models
`connection.client.callTool` on the named server (an `Except.error` is a
rejected promise; the `.ok` payload is `result.content` when it is an array,
with a missing or non-array `content` modelled as `[]`, which the weather
branch treats identically), `decodeUriComponent` models the fallible
`decodeURIComponent`, `readNative` models `connection.client.readResource`,
and `isoDateAfter ms` models
`new Date(Date.now() + ms).toISOString().split("T")[0]`. -/
structure ReadEnv where
  callTool : String → String → Json → Except String (List Json)
  decodeUriComponent : String → Except String String
  readNative : String → String → Except String McpResourceResponse
  isoDateAfter : Nat → String

/-- The fixed synthetic calculator URI. -/
def calculatorUri : String := "mcp://n8n/synthetic/calculator"

/-- The fixed synthetic weather URI path that `readResource` prefix-matches. -/
def weatherUriStart : String := "mcp://n8n/synthetic/weather/"

/-- Line-terminator characters, which `.` in a JavaScript regex does not match. -/
def lineTerm (c : Char) : Bool :=
  c = '\n' || c = '\r' || c = '\u2028' || c = '\u2029'

/-- Models `uri.match(/^mcp:\/\/([^\/]+)\/synthetic\/tool\/(.+)$/)`: the server
segment is the maximal slash-free run after `mcp://`, the tool segment is the
nonempty remainder after `/synthetic/tool/` and may itself contain slashes but
no line terminator (which `.` never matches). -/
def parseSyntheticToolUri (uri : String) : Option (String × String) :=
  let cs := uri.data
  if ("mcp://".data).isPrefixOf cs then
    let rest := cs.drop 6
    let server := rest.takeWhile (fun c => c != '/')
    let tail := rest.drop server.length
    if server.length > 0 && ("/synthetic/tool/".data).isPrefixOf tail then
      let toolSeg := tail.drop 16
      if toolSeg.length > 0 && toolSeg.all (fun c => !(lineTerm c)) then
        some (String.mk server, String.mk toolSeg)
      else none
    else none
  else none

/-- A single-item response with the custom error MIME type. -/
def mcpErrorContent (uri text : String) : McpResourceResponse :=
  { contents := [{ uri := uri, mimeType := some "application/mcp-error", text := some text }] }

/-- A single-item response with the JSON MIME type. -/
def jsonContent (uri text : String) : McpResourceResponse :=
  { contents := [{ uri := uri, mimeType := some "application/json", text := some text }] }

/-- The deterministic weather placeholder payload (`placeholderData`). -/
def weatherPlaceholderJson (env : ReadEnv) (decodedLocation : String) : Json :=
  Json.obj [
    ("location", Json.str decodedLocation),
    ("temperature", Json.num 22),
    ("condition", Json.str "Sunny"),
    ("humidity", Json.num 65),
    ("windSpeed", Json.num 10),
    ("forecast", Json.arr [
      Json.obj [
        ("date", Json.str (env.isoDateAfter 86400000)),
        ("temperature", Json.obj [("min", Json.num 18), ("max", Json.num 24)]),
        ("condition", Json.str "Partly Cloudy")],
      Json.obj [
        ("date", Json.str (env.isoDateAfter 172800000)),
        ("temperature", Json.obj [("min", Json.num 17), ("max", Json.num 23)]),
        ("condition", Json.str "Sunny")]])]

/-- The weather branch outcome when no real data was obtained: build the
placeholder (whose `location` field percent-decodes the location, which can
itself throw and then lands in the `catch` that wraps the error text). -/
def weatherFallbackResponse (env : ReadEnv) (uri location : String) : McpResourceResponse :=
  match env.decodeUriComponent location with
  | Except.ok dec => jsonContent uri (Json.stringify (weatherPlaceholderJson env dec))
  | Except.error e => mcpErrorContent uri ("Error fetching weather data: " ++ e)

/-- The `toolInfo` object returned for a generic synthetic tool resource. -/
def toolInfoJson (serverName : String) (tool : Tool) : Json :=
  Json.obj [
    ("name", Json.str tool.name),
    ("description", Json.str (strOrElse tool.description ("The " ++ tool.name ++ " tool"))),
    ("inputSchema", jsonOrEmptyObj tool.inputSchema),
    ("outputSchema", jsonOrEmptyObj tool.outputSchema),
    ("usage", Json.str ("To use this tool, call the CALL_TOOL action with serverName: \"" ++
      serverName ++ "\", toolName: \"" ++ tool.name ++ "\" and appropriate arguments."))]

/-- `McpService.readResource(serverName, uri)`: existence and disabled checks,
then the synthetic calculator, synthetic weather, generic synthetic tool and
native dispatch paths, in source order.  Returns the result (`Except.error`
models a thrown exception) together with the trace of external calls made. -/
def readResource (env : ReadEnv) (conns : List McpConnection) (serverName uri : String) :
    Except String McpResourceResponse × List EffectCall :=
  match conns.find? (fun c => c.server.name == serverName) with
  | none => (Except.error ("No connection found for server: " ++ serverName), [])
  | some connection =>
    if connection.server.disabled then
      (Except.error ("Server \"" ++ serverName ++ "\" is disabled"), [])
    else if uri = calculatorUri then
      (Except.ok (mcpErrorContent uri ("Error: The calculator resource (" ++ uri ++
        ") represents a tool and must be invoked using the CALL_TOOL action. It cannot be read directly.")),
       [])
    else if jsStartsWith uri weatherUriStart then
      let location := jsDrop uri weatherUriStart.length
      match connection.server.tools.find? (fun t => t.name == "weather") with
      | some _ =>
        let args := Json.obj [("location", Json.str location)]
        match env.callTool serverName "weather" args with
        | Except.ok content =>
          match content with
          | item :: _ =>
              (Except.ok (jsonContent uri (Json.stringify item)),
               [EffectCall.toolCall serverName "weather" args])
          | [] =>
              (Except.ok (weatherFallbackResponse env uri location),
               [EffectCall.toolCall serverName "weather" args])
        | Except.error e =>
            (Except.ok (mcpErrorContent uri ("Error fetching weather data: " ++ e)),
             [EffectCall.toolCall serverName "weather" args])
      | none => (Except.ok (weatherFallbackResponse env uri location), [])
    else
      match parseSyntheticToolUri uri with
      | some (srv, toolSeg) =>
        if srv == serverName then
          match connection.server.tools.find? (fun t => t.name == toolSeg) with
          | none =>
              (Except.ok (mcpErrorContent uri ("Error accessing tool resource: Tool \x27" ++
                toolSeg ++ "\x27 not found on server \x27" ++ serverName ++ "\x27")), [])
          | some tool =>
              (Except.ok (jsonContent uri (Json.stringifyPretty (toolInfoJson serverName tool))), [])
        else (env.readNative serverName uri, [EffectCall.nativeRead serverName uri])
      | none => (env.readNative serverName uri, [EffectCall.nativeRead serverName uri])

/-! ## Capability synthesizer (`McpService.connectToServer`, lines 280-357) -/

/-- The hard-coded calculator template constant
(src/templates/calculatorResourceTemplate.ts); its zod schemas are outside the
`Json` model and unused by every claim. -/
def calculatorResourceTemplate : ResourceTemplate :=
  { uriTemplate := "mcp://n8n/synthetic/calculator"
    name := "Calculator Resource"
    description := some "Evaluates a mathematical expression string using the n8n calculator tool, accessed via resource interface." }

/-- The hard-coded weather template constant
(src/templates/weatherResourceTemplate.ts). -/
def weatherResourceTemplate : ResourceTemplate :=
  { uriTemplate := "mcp://n8n/synthetic/weather/\x7blocation\x7d"
    name := "Weather Information Resource"
    description := some "Retrieves current weather information and optional forecast for a specified location." }

/-- The special calculator resource synthesized when a `calculator` tool exists. -/
def calculatorResource : Resource :=
  { uri := calculatorResourceTemplate.uriTemplate
    name := calculatorResourceTemplate.name
    description := calculatorResourceTemplate.description
    templateUri := some calculatorResourceTemplate.uriTemplate }

/-- The special weather resource synthesized when a `weather` tool exists. -/
def weatherResource : Resource :=
  { uri := weatherResourceTemplate.uriTemplate
    name := weatherResourceTemplate.name
    description := weatherResourceTemplate.description
    templateUri := some weatherResourceTemplate.uriTemplate }

/-- The generic synthetic resource built from one tool (`toolResource`). -/
def genericToolResource (serverName : String) (tool : Tool) : Resource :=
  { uri := "mcp://" ++ serverName ++ "/synthetic/tool/" ++ tool.name
    name := capitalizeFirst tool.name ++ " Tool"
    description := some (strOrElse tool.description ("Access the " ++ tool.name ++ " functionality"))
    templateUri := some ("mcp://" ++ serverName ++ "/synthetic/tool-template/" ++ tool.name) }

/-- The generic synthetic template built from one tool (`toolTemplate`). -/
def genericToolTemplate (serverName : String) (tool : Tool) : ResourceTemplate :=
  { uriTemplate := "mcp://" ++ serverName ++ "/synthetic/tool-template/" ++ tool.name
    name := capitalizeFirst tool.name ++ " Template"
    description := some (strOrElse tool.description ("Template for " ++ tool.name ++ " functionality"))
    inputSchema := some (jsonOrEmptyObj tool.inputSchema)
    outputSchema := some (jsonOrEmptyObj tool.outputSchema) }

/-- Push a resource unless one with the same URI is already present. -/
def insertResourceIfNew (rs : List Resource) (r : Resource) : List Resource :=
  if rs.any (fun x => x.uri == r.uri) then rs else rs ++ [r]

/-- Push a template unless one with the same template URI is already present. -/
def insertTemplateIfNew (ts : List ResourceTemplate) (t : ResourceTemplate) : List ResourceTemplate :=
  if ts.any (fun x => x.uriTemplate == t.uriTemplate) then ts else ts ++ [t]

/-- The synthesis block of `connectToServer`: starting from the real resources
and templates, run the generic per-tool pass (when the server is an n8n server
or reported zero real resources; the `calculator` tool is skipped there), then
append the calculator special pair when a `calculator` tool exists, then the
weather special pair when a `weather` tool exists, deduplicating by URI at
every insertion. -/
def synthesizeResources (serverName : String) (isN8n : Bool) (tools : List Tool)
    (actualResources : List Resource) (actualTemplates : List ResourceTemplate) :
    List Resource × List ResourceTemplate :=
  let start := (actualResources, actualTemplates)
  let afterGeneric :=
    if isN8n || actualResources.length == 0 then
      tools.foldl
        (fun acc tool =>
          if tool.name == "calculator" then acc
          else
            (insertResourceIfNew acc.1 (genericToolResource serverName tool),
             insertTemplateIfNew acc.2 (genericToolTemplate serverName tool)))
        start
    else start
  let afterCalc :=
    if tools.any (fun t => t.name == "calculator") then
      (insertResourceIfNew afterGeneric.1 calculatorResource,
       insertTemplateIfNew afterGeneric.2 calculatorResourceTemplate)
    else afterGeneric
  if tools.any (fun t => t.name == "weather") then
    (insertResourceIfNew afterCalc.1 weatherResource,
     insertTemplateIfNew afterCalc.2 weatherResourceTemplate)
  else afterCalc

/-! ## Connection manager (`updateServerConnections`, `deleteConnection`,
`connectToServer`, `restartConnection`) -/

/-- Observable reconciliation events: a connection was deleted (its transport
and client closed) or a connect attempt was started. -/
inductive Event where
  | deleted (name : String)
  | connectStarted (name : String)
deriving Repr, DecidableEq

/-- Outcome of one connect attempt in the environment: the transport
constructor threw (missing command/URL or invalid URL — before the connection
was pushed), the handshake `client.connect` threw (after the push), or the
handshake succeeded and the capability fetches returned these lists (fetch
failures are already absorbed into empty lists by the fetch helpers). -/
inductive ConnectOutcome where
  | buildFailed (msg : String)
  | handshakeFailed (msg : String)
  | ok (tools : List Tool) (resources : List Resource) (templates : List ResourceTemplate)

/-- The transport/client oracle for connection management. -/
structure ConnectEnv where
  connect : String → McpServerConfig → ConnectOutcome

/-- `this.connections.find((conn) => conn.server.name === name)`. -/
def findConn (conns : List McpConnection) (name : String) : Option McpConnection :=
  conns.find? (fun c => c.server.name == name)

/-- `this.connections.filter((conn) => conn.server.name !== name)`. -/
def removeConn (conns : List McpConnection) (name : String) : List McpConnection :=
  conns.filter (fun c => !(c.server.name == name))

/-- `McpService.deleteConnection(name)`: close and remove when present,
otherwise do nothing (close failures are logged, never raised). -/
def deleteConnection (conns : List McpConnection) (name : String) :
    List McpConnection × List Event :=
  match findConn conns name with
  | none => (conns, [])
  | some _ => (removeConn conns name, [Event.deleted name])

/-- The connection left behind by a failed handshake: it was pushed in
`connecting` state with the serialized config, then the catch flipped it to
`disconnected` and appended the error message. -/
def failedConn (name : String) (config : McpServerConfig) (msg : String) : McpConnection :=
  { server := { name := name, config := stringifyConfig config, configVal := config,
                status := ConnStatus.disconnected, error := msg } }

/-- The finalized connection after a successful handshake: the server record
is wholesale replaced with the fetched tools and the synthesized
resources/templates. -/
def okConn (name : String) (config : McpServerConfig) (tools : List Tool)
    (resources : List Resource) (templates : List ResourceTemplate) : McpConnection :=
  let synth := synthesizeResources name (isN8nServer config) tools resources templates
  { server := { name := name, config := stringifyConfig config, configVal := config,
                status := ConnStatus.connected, error := "",
                tools := tools, resources := synth.1,
                resourceTemplates := synth.2 } }

/-- `McpService.connectToServer(name, config)`: drop any same-named connection,
then build + connect.  A transport-build failure throws before the push, so no
connection remains; a handshake failure is caught after the push and leaves a
`disconnected` connection with the error message; on success the server record
is wholesale replaced (`okConn`).  The surrounding try/catch swallows every
exception, so this function is total. -/
def connectToServer (env : ConnectEnv) (conns : List McpConnection) (name : String)
    (config : McpServerConfig) : List McpConnection × List Event :=
  let cs := removeConn conns name
  match env.connect name config with
  | ConnectOutcome.buildFailed _ => (cs, [Event.connectStarted name])
  | ConnectOutcome.handshakeFailed msg =>
      (cs ++ [failedConn name config msg], [Event.connectStarted name])
  | ConnectOutcome.ok tools resources templates =>
      (cs ++ [okConn name config tools resources templates], [Event.connectStarted name])

/-- One iteration of the deletion loop of `updateServerConnections`: skip
names that are still configured, delete the rest. -/
def removalStep (newNames : List String) (acc : List McpConnection × List Event)
    (n : String) : List McpConnection × List Event :=
  if newNames.contains n then acc
  else
    let d := deleteConnection acc.1 n
    (d.1, acc.2 ++ d.2)

/-- The deletion phase of `updateServerConnections`: iterate over the current
names and delete every connection whose name is absent from the new
configuration map. -/
def deleteRemoved (conns : List McpConnection) (newNames : List String) :
    List McpConnection × List Event :=
  (conns.map (fun c => c.server.name)).foldl (removalStep newNames) (conns, [])

/-- One iteration of the add/update loop of `updateServerConnections`: connect
when the name is new, delete-and-reconnect when the serialized config
drifted, and leave the connection untouched otherwise. -/
def reconcileStep (env : ConnectEnv) (acc : List McpConnection × List Event)
    (entry : String × McpServerConfig) : List McpConnection × List Event :=
  match findConn acc.1 entry.1 with
  | none =>
      let c := connectToServer env acc.1 entry.1 entry.2
      (c.1, acc.2 ++ c.2)
  | some currentConnection =>
      if stringifyConfig entry.2 ≠ currentConnection.server.config then
        let d := deleteConnection acc.1 entry.1
        let c := connectToServer env d.1 entry.1 entry.2
        (c.1, acc.2 ++ d.2 ++ c.2)
      else acc

/-- `McpService.updateServerConnections(serverConfigs)`: delete removed
servers, then reconcile each configured entry in order.  The configuration
map is a key-ordered association list (`Object.entries`). -/
def updateServerConnections (env : ConnectEnv) (conns : List McpConnection)
    (serverConfigs : List (String × McpServerConfig)) : List McpConnection × List Event :=
  let newNames := serverConfigs.map Prod.fst
  let phase1 := deleteRemoved conns newNames
  serverConfigs.foldl (reconcileStep env) phase1

/-- Replace the first connection with the given name (models mutating the
object returned by `find`). -/
def updateFirst (conns : List McpConnection) (name : String)
    (f : McpConnection → McpConnection) : List McpConnection :=
  match conns with
  | [] => []
  | c :: rest => if c.server.name == name then f c :: rest else c :: updateFirst rest name f

/-- `McpService.restartConnection(serverName)`: when no connection with the
name exists (or its stored serialized config is falsy, which stringified
configs never are) the `if (config)` body is skipped and the call returns
normally; otherwise flip the found connection to `connecting`, delete it and
reconnect from `JSON.parse` of the stored config (`configVal`).  The `catch`
that would throw `Failed to connect to ... MCP server` is kept in the result
type, but `deleteConnection` and `connectToServer` are total, so it is never
taken. -/
def restartConnection (env : ConnectEnv) (conns : List McpConnection) (serverName : String) :
    Except String (List McpConnection × List Event) :=
  match findConn conns serverName with
  | none => Except.ok (conns, [])
  | some connection =>
    if connection.server.config = "" then Except.ok (conns, [])
    else
      let cs0 := updateFirst conns serverName (fun c =>
        { c with server := { c.server with status := ConnStatus.connecting, error := "" } })
      let d := deleteConnection cs0 serverName
      let r := connectToServer env d.1 serverName connection.server.configVal
      Except.ok (r.1, d.2 ++ r.2)

/-! ## Selection validation and bounded retry -/

/-- Property access on a JSON object (first field with the key, as in
JavaScript objects). -/
def Json.getField (j : Json) (key : String) : Option Json :=
  match j with
  | Json.obj fields => (fields.find? (fun f => f.1 == key)).map Prod.snd
  | _ => none

/-- Modelled from the spec: `ToolSelectionSchema` is declared in
`src/types.ts`, which is absent from the sources.  Spec section 6: a tool
selection is `serverName: string, toolName: string, arguments: object` with
optional `reasoning`, or the alternative escape object with
`noToolAvailable: true`; section 4.5: validation collects all schema
violations, not just the first (the `Ajv` instance in
`src/utils/validation.ts` is built with `allErrors: true`).  Returns the
collected violation list, empty exactly when the value is valid. -/
def toolSelectionViolations (j : Json) : List String :=
  match j with
  | Json.obj _ =>
    (match j.getField "noToolAvailable" with
     | some (Json.bool true) => []
     | _ =>
       (match j.getField "serverName" with
        | some (Json.str _) => []
        | some _ => ["serverName must be string"]
        | none => ["must have required property serverName"]) ++
       (match j.getField "toolName" with
        | some (Json.str _) => []
        | some _ => ["toolName must be string"]
        | none => ["must have required property toolName"]) ++
       (match j.getField "arguments" with
        | some (Json.obj _) => []
        | some _ => ["arguments must be object"]
        | none => ["must have required property arguments"]))
  | _ => ["must be object"]

/-- `validateToolSelection` (src/utils/validation.ts) applied to an
already-parsed value — the non-string branch of its input handling, which the
claim's concrete object inputs take.  On success the parsed input itself is
returned as the data; on failure the collected Ajv violations (which the
source serializes into its error message) are returned. -/
def validateToolSelection (data : Json) : Except (List String) Json :=
  match toolSelectionViolations data with
  | [] => Except.ok data
  | errs => Except.error errs

/-- Modelled from the spec: `withModelRetry` is defined in `src/utils/mcp.ts`,
which is absent from the sources (only its call sites in the actions are).
Spec section 4.5: one attempt is Propose → Parse → SchemaValidate; on
rejection a corrective feedback prompt is built from the previous response and
the validation error and the external model is re-invoked (`regenerate`), the
loop being bounded by a maximum attempt count; on exhaustion the terminal
`Abandoned` state is surfaced to the caller as "no selection" (`none`), never
as a raised error.  The second component counts the validation attempts
performed. -/
def withModelRetry {α : Type} (validate : String → Except String α)
    (regenerate : String → String → String) (response : String) :
    Nat → Option α × Nat
  | 0 => (none, 0)
  | Nat.succ budget =>
    match validate response with
    | Except.ok a => (some a, 1)
    | Except.error e =>
      let r := withModelRetry validate regenerate (regenerate response e) budget
      (r.1, r.2 + 1)

/-! ## Concrete fixtures used by witnesses and counterexamples -/

/-- A benign environment: the tool-call and native-read oracles are unused,
decoding is the identity, dates are fixed. -/
def readEnvDefault : ReadEnv :=
  { callTool := fun _ _ _ => Except.error "unused"
    decodeUriComponent := fun s => Except.ok s
    readNative := fun _ _ => Except.error "unused"
    isoDateAfter := fun _ => "2026-10-12" }

/-- A sample SSE server configuration. -/
def cfgSseExample : McpServerConfig :=
  { type := "sse", url := some "https://example.com/sse" }

/-- A connected `n8n` connection with an empty tool list. -/
def connN8nNoTools : McpConnection :=
  { server := { name := "n8n", config := stringifyConfig cfgSseExample,
                configVal := cfgSseExample, status := ConnStatus.connected } }

/-- A disabled `n8n` connection. -/
def connN8nDisabled : McpConnection :=
  { server := { name := "n8n", config := stringifyConfig cfgSseExample,
                configVal := cfgSseExample, status := ConnStatus.connected,
                disabled := true } }

/-! ## C2: the synthetic calculator resource -/

/-- C2: for every server name with an existing, non-disabled connection,
reading the fixed synthetic calculator URI returns a single content item with
mimeType `application/mcp-error` and the explanatory text, and performs no
external call whatsoever (in particular the calculator tool is never invoked),
regardless of the connection's tool list. -/
theorem readResource_calculator_error (env : ReadEnv) (conns : List McpConnection)
    (serverName : String) (c : McpConnection)
    (hfind : conns.find? (fun x => x.server.name == serverName) = some c)
    (hdis : c.server.disabled = false) :
    readResource env conns serverName calculatorUri =
      (Except.ok (mcpErrorContent calculatorUri
        ("Error: The calculator resource (" ++ calculatorUri ++
         ") represents a tool and must be invoked using the CALL_TOOL action. It cannot be read directly.")),
       []) := by
  unfold readResource
  rw [hfind]
  simp [hdis]

/-- C2 witness: the theorem evaluated on a concrete connection list. -/
theorem readResource_calculator_error_witness :
    readResource readEnvDefault [connN8nNoTools] "n8n" calculatorUri =
      (Except.ok (mcpErrorContent calculatorUri
        ("Error: The calculator resource (" ++ calculatorUri ++
         ") represents a tool and must be invoked using the CALL_TOOL action. It cannot be read directly.")),
       []) :=
  readResource_calculator_error readEnvDefault [connN8nNoTools] "n8n" connN8nNoTools rfl rfl

/-! ## C10: existence and disabled checks run first -/

/-- C10: for every URI (the fixed synthetic ones included), `readResource`
throws before any synthetic-resource handling — performing no external call —
when no connection with the server name exists, and likewise when the named
connection is disabled. -/
theorem readResource_checks_first (env : ReadEnv) (conns : List McpConnection)
    (serverName uri : String) :
    (conns.find? (fun c => c.server.name == serverName) = none →
      readResource env conns serverName uri =
        (Except.error ("No connection found for server: " ++ serverName), [])) ∧
    (∀ c, conns.find? (fun c => c.server.name == serverName) = some c →
      c.server.disabled = true →
      readResource env conns serverName uri =
        (Except.error ("Server \"" ++ serverName ++ "\" is disabled"), [])) := by
  constructor
  · intro h
    unfold readResource
    rw [h]
  · intro c h hd
    unfold readResource
    rw [h]
    simp [hd]

/-- C10 witness: both checks evaluated at concrete inputs (an unknown server
name, then a disabled connection, both with the calculator URI). -/
theorem readResource_checks_first_witness :
    readResource readEnvDefault [] "ghost" calculatorUri =
      (Except.error ("No connection found for server: " ++ "ghost"), []) ∧
    readResource readEnvDefault [connN8nDisabled] "n8n" calculatorUri =
      (Except.error ("Server \"" ++ "n8n" ++ "\" is disabled"), []) :=
  ⟨(readResource_checks_first readEnvDefault [] "ghost" calculatorUri).1 rfl,
   (readResource_checks_first readEnvDefault [connN8nDisabled] "n8n" calculatorUri).2
     connN8nDisabled rfl rfl⟩

/-! ## Dispatch exclusion lemmas for the synthetic URI spaces -/

/-- A URI under the weather path is not the calculator URI. -/
theorem weatherStart_ne_calculatorUri (uri : String)
    (hw : jsStartsWith uri weatherUriStart = true) : uri ≠ calculatorUri := by
  intro h
  subst h
  exact absurd hw (by decide)

/-- A URI matching the generic tool pattern is not the calculator URI. -/
theorem parse_ne_calculatorUri (uri : String) (p : String × String)
    (h : parseSyntheticToolUri uri = some p) : uri ≠ calculatorUri := by
  intro he
  subst he
  exact Option.noConfusion ((rfl : parseSyntheticToolUri calculatorUri = none).symm.trans h)

/-- A URI matching the generic tool pattern does not lie under the weather
path (its second segment is `synthetic/tool/`, not `synthetic/weather/`). -/
theorem parse_not_weatherStart (uri : String) (p : String × String)
    (h : parseSyntheticToolUri uri = some p) : jsStartsWith uri weatherUriStart = false := by
  by_contra hw
  rw [Bool.not_eq_false, jsStartsWith] at hw
  obtain ⟨t, ht⟩ := List.isPrefixOf_iff_prefix.mp hw
  have hdata : uri.data = weatherUriStart.data ++ t := ht.symm
  have hws : weatherUriStart.data =
      ['m','c','p',':','/','/','n','8','n','/','s','y','n','t','h','e','t','i','c','/','w','e','a','t','h','e','r','/'] := rfl
  rw [hws] at hdata
  unfold parseSyntheticToolUri at h
  rw [hdata] at h
  simp [List.isPrefixOf, List.takeWhile] at h

/-! ## C1: the synthetic weather resource -/

/-- An environment whose weather tool call rejects with message `boom`. -/
def readEnvWeatherThrows : ReadEnv :=
  { callTool := fun _ _ _ => Except.error "boom"
    decodeUriComponent := fun s => Except.ok s
    readNative := fun _ _ => Except.error "unused"
    isoDateAfter := fun _ => "2026-10-12" }

/-- A connected, non-disabled `n8n` connection whose tool list contains `weather`. -/
def connN8nWeather : McpConnection :=
  { server := { name := "n8n", config := stringifyConfig cfgSseExample,
                configVal := cfgSseExample, status := ConnStatus.connected,
                tools := [{ name := "weather" }] } }

/-- C1 counterexample: with a non-disabled `n8n` connection holding a
`weather` tool whose call rejects, reading
`mcp://n8n/synthetic/weather/Paris` yields a single content item with
mimeType `application/mcp-error` carrying the propagated error text — not the
`application/json` placeholder payload the claim requires on any failure of
the weather tool call. -/
theorem readResource_weather_claim_counterexample :
    readResource readEnvWeatherThrows [connN8nWeather] "n8n" "mcp://n8n/synthetic/weather/Paris" =
      (Except.ok (mcpErrorContent "mcp://n8n/synthetic/weather/Paris"
        "Error fetching weather data: boom"),
       [EffectCall.toolCall "n8n" "weather" (Json.obj [("location", Json.str "Paris")])]) ∧
    some "application/mcp-error" ≠ some "application/json" :=
  ⟨rfl, by decide⟩

theorem readResource_weather_reduce (env : ReadEnv) (conns : List McpConnection)
    (serverName uri : String) (c : McpConnection)
    (hfind : conns.find? (fun x => x.server.name == serverName) = some c)
    (hdis : c.server.disabled = false)
    (hw : jsStartsWith uri weatherUriStart = true) :
    readResource env conns serverName uri =
      (match c.server.tools.find? (fun t => t.name == "weather") with
       | some _ =>
         match env.callTool serverName "weather"
             (Json.obj [("location", Json.str (jsDrop uri weatherUriStart.length))]) with
         | Except.ok content =>
           match content with
           | item :: _ =>
               (Except.ok (jsonContent uri (Json.stringify item)),
                [EffectCall.toolCall serverName "weather"
                  (Json.obj [("location", Json.str (jsDrop uri weatherUriStart.length))])])
           | [] =>
               (Except.ok (weatherFallbackResponse env uri (jsDrop uri weatherUriStart.length)),
                [EffectCall.toolCall serverName "weather"
                  (Json.obj [("location", Json.str (jsDrop uri weatherUriStart.length))])])
         | Except.error e =>
             (Except.ok (mcpErrorContent uri ("Error fetching weather data: " ++ e)),
              [EffectCall.toolCall serverName "weather"
                (Json.obj [("location", Json.str (jsDrop uri weatherUriStart.length))])])
       | none => (Except.ok (weatherFallbackResponse env uri (jsDrop uri weatherUriStart.length)), [])) := by
  have hne : uri ≠ calculatorUri := weatherStart_ne_calculatorUri uri hw
  unfold readResource
  rw [hfind]
  simp only [hdis, Bool.false_eq_true, if_false, hne, if_neg, hw, if_true, not_false_eq_true]

theorem readResource_weather_amended (env : ReadEnv) (conns : List McpConnection)
    (serverName uri : String) (c : McpConnection)
    (hfind : conns.find? (fun x => x.server.name == serverName) = some c)
    (hdis : c.server.disabled = false)
    (hw : jsStartsWith uri weatherUriStart = true) :
    (∃ resp, (readResource env conns serverName uri).1 = Except.ok resp) ∧
    (c.server.tools.find? (fun t => t.name == "weather") = none →
      readResource env conns serverName uri =
        (Except.ok (weatherFallbackResponse env uri (jsDrop uri weatherUriStart.length)), [])) ∧
    ((c.server.tools.find? (fun t => t.name == "weather")).isSome = true →
      (∀ e, env.callTool serverName "weather"
          (Json.obj [("location", Json.str (jsDrop uri weatherUriStart.length))]) = Except.error e →
        readResource env conns serverName uri =
          (Except.ok (mcpErrorContent uri ("Error fetching weather data: " ++ e)),
           [EffectCall.toolCall serverName "weather"
             (Json.obj [("location", Json.str (jsDrop uri weatherUriStart.length))])])) ∧
      (env.callTool serverName "weather"
          (Json.obj [("location", Json.str (jsDrop uri weatherUriStart.length))]) = Except.ok [] →
        readResource env conns serverName uri =
          (Except.ok (weatherFallbackResponse env uri (jsDrop uri weatherUriStart.length)),
           [EffectCall.toolCall serverName "weather"
             (Json.obj [("location", Json.str (jsDrop uri weatherUriStart.length))])])) ∧
      (∀ item rest, env.callTool serverName "weather"
          (Json.obj [("location", Json.str (jsDrop uri weatherUriStart.length))]) =
            Except.ok (item :: rest) →
        readResource env conns serverName uri =
          (Except.ok (jsonContent uri (Json.stringify item)),
           [EffectCall.toolCall serverName "weather"
             (Json.obj [("location", Json.str (jsDrop uri weatherUriStart.length))])]))) ∧
    (∀ dec, env.decodeUriComponent (jsDrop uri weatherUriStart.length) = Except.ok dec →
      weatherFallbackResponse env uri (jsDrop uri weatherUriStart.length) =
        jsonContent uri (Json.stringify (weatherPlaceholderJson env dec))) ∧
    (∀ e, env.decodeUriComponent (jsDrop uri weatherUriStart.length) = Except.error e →
      weatherFallbackResponse env uri (jsDrop uri weatherUriStart.length) =
        mcpErrorContent uri ("Error fetching weather data: " ++ e)) := by
  have hred := readResource_weather_reduce env conns serverName uri c hfind hdis hw
  refine ⟨?_, ?_, ?_, ?_, ?_⟩
  · rw [hred]
    rcases hfw : c.server.tools.find? (fun t => t.name == "weather") with _ | t
    · rw [hfw]
      exact ⟨_, rfl⟩
    · rw [hfw]
      rcases hct : env.callTool serverName "weather"
          (Json.obj [("location", Json.str (jsDrop uri weatherUriStart.length))]) with e | content
      · exact ⟨_, rfl⟩
      · cases content
        · exact ⟨_, rfl⟩
        · exact ⟨_, rfl⟩
  · intro hnone
    rw [hred, hnone]
  · intro hsome
    obtain ⟨t, ht⟩ := Option.isSome_iff_exists.mp hsome
    refine ⟨?_, ?_, ?_⟩
    · intro e he
      rw [hred, ht, he]
    · intro he
      rw [hred, ht, he]
    · intro item rest he
      rw [hred, ht, he]
  · intro dec hdec
    unfold weatherFallbackResponse
    rw [hdec]
  · intro e he
    unfold weatherFallbackResponse
    rw [he]

/-- C1 witness: the amended theorem evaluated with no weather tool present;
the fallback is the concrete JSON placeholder for the decoded location. -/
theorem readResource_weather_amended_witness :
    readResource readEnvDefault [connN8nNoTools] "n8n" "mcp://n8n/synthetic/weather/Paris" =
      (Except.ok (jsonContent "mcp://n8n/synthetic/weather/Paris"
        (Json.stringify (weatherPlaceholderJson readEnvDefault "Paris"))), []) := by
  have h := (readResource_weather_amended readEnvDefault [connN8nNoTools] "n8n"
      "mcp://n8n/synthetic/weather/Paris" connN8nNoTools rfl rfl rfl).2.1 rfl
  exact h

/-! ## C6: generic synthetic tool resources -/

/-- A connected `srv` connection with no tools. -/
def connSrvNoTools : McpConnection :=
  { server := { name := "srv", config := stringifyConfig cfgSseExample,
                configVal := cfgSseExample, status := ConnStatus.connected } }

/-- A sample tool named `foo`. -/
def fooTool : Tool :=
  { name := "foo", description := some "Frobnicates things"
    inputSchema := some (Json.obj [("type", Json.str "object")]) }

/-- A connected `srv` connection whose only tool is `foo`. -/
def connSrvFoo : McpConnection :=
  { server := { name := "srv", config := stringifyConfig cfgSseExample,
                configVal := cfgSseExample, status := ConnStatus.connected,
                tools := [fooTool] } }

/-- C6 counterexample: with a non-disabled connection for `srv` whose tool
list has no tool `foo`, reading `mcp://srv/synthetic/tool/foo` does not fail
(throw): it returns normally, with a single `application/mcp-error` content
item whose text reports the tool was not found. -/
theorem readResource_toolinfo_claim_counterexample :
    readResource readEnvDefault [connSrvNoTools] "srv" "mcp://srv/synthetic/tool/foo" =
      (Except.ok (mcpErrorContent "mcp://srv/synthetic/tool/foo"
        ("Error accessing tool resource: Tool \x27foo\x27 not found on server \x27srv\x27")), []) ∧
    (∀ e : String,
      (Except.ok (mcpErrorContent "mcp://srv/synthetic/tool/foo"
        ("Error accessing tool resource: Tool \x27foo\x27 not found on server \x27srv\x27")) :
          Except String McpResourceResponse) ≠ Except.error e) :=
  ⟨rfl, fun _ h => Except.noConfusion h⟩

/-- C6 amended: for every server with an existing, non-disabled connection and
every URI matching `mcp://serverName/synthetic/tool/toolSeg`: when the
connection's tool list has no tool named `toolSeg` the call returns (without
throwing) a single `application/mcp-error` content item reporting the tool was
not found; otherwise it returns a single `application/json` item carrying the
JSON description of the tool (name, description, input/output schemas, usage
hint).  Neither path performs any external call, so the tool itself is never
invoked. -/
theorem readResource_toolinfo_amended (env : ReadEnv) (conns : List McpConnection)
    (serverName uri toolSeg : String) (c : McpConnection)
    (hfind : conns.find? (fun x => x.server.name == serverName) = some c)
    (hdis : c.server.disabled = false)
    (hparse : parseSyntheticToolUri uri = some (serverName, toolSeg)) :
    (c.server.tools.find? (fun t => t.name == toolSeg) = none →
      readResource env conns serverName uri =
        (Except.ok (mcpErrorContent uri ("Error accessing tool resource: Tool \x27" ++ toolSeg ++
          "\x27 not found on server \x27" ++ serverName ++ "\x27")), [])) ∧
    (∀ tool, c.server.tools.find? (fun t => t.name == toolSeg) = some tool →
      readResource env conns serverName uri =
        (Except.ok (jsonContent uri (Json.stringifyPretty (toolInfoJson serverName tool))), [])) := by
  have hne : uri ≠ calculatorUri := parse_ne_calculatorUri uri _ hparse
  have hnw : jsStartsWith uri weatherUriStart = false := parse_not_weatherStart uri _ hparse
  have hred : readResource env conns serverName uri =
      (match c.server.tools.find? (fun t => t.name == toolSeg) with
       | none =>
           (Except.ok (mcpErrorContent uri ("Error accessing tool resource: Tool \x27" ++ toolSeg ++
             "\x27 not found on server \x27" ++ serverName ++ "\x27")), [])
       | some tool =>
           (Except.ok (jsonContent uri (Json.stringifyPretty (toolInfoJson serverName tool))), [])) := by
    unfold readResource
    rw [hfind]
    simp only [hdis, Bool.false_eq_true, if_false, hne, if_neg, not_false_eq_true, hnw,
      Bool.false_eq_true, hparse, beq_self_eq_true, if_true]
  constructor
  · intro hnone
    rw [hred, hnone]
  · intro tool ht
    rw [hred, ht]

/-- C6 witness: the amended theorem evaluated with the tool present — the
response is the pretty-printed JSON description of `foo` and no call is made. -/
theorem readResource_toolinfo_amended_witness :
    readResource readEnvDefault [connSrvFoo] "srv" "mcp://srv/synthetic/tool/foo" =
      (Except.ok (jsonContent "mcp://srv/synthetic/tool/foo"
        (Json.stringifyPretty (toolInfoJson "srv" fooTool))), []) :=
  (readResource_toolinfo_amended readEnvDefault [connSrvFoo] "srv"
    "mcp://srv/synthetic/tool/foo" "foo" connSrvFoo rfl rfl rfl).2 fooTool rfl

/-! ## C3: the bounded retry loop -/

/-- C3: for every initial model response and every validator that rejects all
inputs, the retry loop performs exactly the configured maximum number of
attempts and then terminates with the no-selection (`Abandoned`) outcome
`none` — it neither raises an error nor loops forever (the loop is a total
function). -/
theorem withModelRetry_exhausts {α : Type} (validate : String → Except String α)
    (regenerate : String → String → String) (response : String) (maxAttempts : Nat)
    (hrej : ∀ s, ∃ e, validate s = Except.error e) :
    withModelRetry validate regenerate response maxAttempts = (none, maxAttempts) := by
  induction maxAttempts generalizing response with
  | zero => rfl
  | succ n ih =>
    obtain ⟨e, he⟩ := hrej response
    unfold withModelRetry
    rw [he]
    simp [ih]

/-- C3 witness: a concrete always-rejecting validator with three configured
attempts: exactly three validations happen and the outcome is `none`. -/
theorem withModelRetry_exhausts_witness :
    withModelRetry (fun _ => (Except.error "invalid" : Except String Json))
      (fun r e => r ++ e) "first response" 3 = (none, 3) :=
  withModelRetry_exhausts _ _ "first response" 3 (fun _ => ⟨"invalid", rfl⟩)

/-! ## C8: tool selection schema validation -/

/-- C8: validation accepts the calculator selection object (success with that
very data) and rejects the object having only `serverName`, with a failure
carrying the non-empty list of both remaining violations — missing `toolName`
and missing `arguments` — not only the first. -/
theorem validateToolSelection_examples :
    validateToolSelection (Json.obj [("serverName", Json.str "n8n"),
        ("toolName", Json.str "calculator"),
        ("arguments", Json.obj [("input", Json.str "2+2")])]) =
      Except.ok (Json.obj [("serverName", Json.str "n8n"),
        ("toolName", Json.str "calculator"),
        ("arguments", Json.obj [("input", Json.str "2+2")])]) ∧
    validateToolSelection (Json.obj [("serverName", Json.str "n8n")]) =
      Except.error ["must have required property toolName",
                    "must have required property arguments"] ∧
    (["must have required property toolName",
      "must have required property arguments"] ≠ ([] : List String)) ∧
    ["must have required property toolName",
      "must have required property arguments"].length = 2 :=
  ⟨rfl, rfl, by decide, rfl⟩

/-! ## C9: restartConnection -/

/-- A trivial connect environment for concrete evaluation. -/
def connectEnvTrivial : ConnectEnv :=
  { connect := fun _ _ => ConnectOutcome.buildFailed "unused" }

/-- C9 counterexample: restarting a server name unknown to the manager does
not fail with a `NoSuchConnection` error (nor any other): the call returns
successfully, leaving the connection set untouched and performing nothing. -/
theorem restartConnection_claim_counterexample :
    restartConnection connectEnvTrivial [] "ghost" = Except.ok ([], []) ∧
    (∀ e : String, restartConnection connectEnvTrivial [] "ghost" ≠ Except.error e) :=
  ⟨rfl, fun _ h => Except.noConfusion
    ((rfl : Except.ok (([] : List McpConnection), ([] : List Event)) =
        restartConnection connectEnvTrivial [] "ghost").trans h)⟩

/-- C9 amended: `restartConnection` never throws.  For an unknown name it is a
silent no-op — it returns successfully with the connection set unchanged and
no events — rather than failing with `NoSuchConnection`; and because
`connectToServer` absorbs every failure of the reconnect internally, the
`ReconnectFailed` error path is unreachable. -/
theorem restartConnection_amended (env : ConnectEnv) (conns : List McpConnection)
    (name : String) :
    (findConn conns name = none → restartConnection env conns name = Except.ok (conns, [])) ∧
    (∃ r, restartConnection env conns name = Except.ok r) := by
  constructor
  · intro h
    unfold restartConnection
    rw [h]
  · unfold restartConnection
    rcases h : findConn conns name with _ | c
    · exact ⟨_, rfl⟩
    · by_cases hc : c.server.config = ""
      · exact ⟨_, if_pos hc⟩
      · exact ⟨_, if_neg hc⟩

/-- C9 witness: the amended theorem evaluated on the empty manager and an
unknown name. -/
theorem restartConnection_amended_witness :
    restartConnection connectEnvTrivial [] "ghost" = Except.ok ([], []) :=
  (restartConnection_amended connectEnvTrivial [] "ghost").1 rfl

/-! ## C5: synthesizer fallback for tool-only servers -/

/-- String concatenation cancels on the left. -/
theorem strAppend_left_cancel (p a b : String) (h : p ++ a = p ++ b) : a = b := by
  have hd : p.data ++ a.data = p.data ++ b.data := congrArg String.data h
  exact String.ext (List.append_cancel_left hd)

/-- Distinct tool names yield distinct generic synthetic resource URIs (for a
fixed server). -/
theorem genericToolResource_uri_injective (serverName : String) (a b : Tool)
    (h : (genericToolResource serverName a).uri = (genericToolResource serverName b).uri) :
    a.name = b.name :=
  strAppend_left_cancel ("mcp://" ++ serverName ++ "/synthetic/tool/") a.name b.name h

/-- The generic per-tool pass appends exactly one generic resource per
non-calculator tool, in tool order, provided no accumulated resource already
uses one of the generic URIs and the tool names are distinct. -/
theorem genericPass_resources (serverName : String) (tools : List Tool)
    (acc : List Resource × List ResourceTemplate)
    (hnocalc : ∀ t ∈ tools, ¬ t.name = "calculator")
    (hfresh : ∀ t ∈ tools, ∀ r ∈ acc.1, ¬ r.uri = (genericToolResource serverName t).uri)
    (hnodup : (tools.map Tool.name).Nodup) :
    (tools.foldl
      (fun acc tool =>
        if tool.name == "calculator" then acc
        else
          (insertResourceIfNew acc.1 (genericToolResource serverName tool),
           insertTemplateIfNew acc.2 (genericToolTemplate serverName tool)))
      acc).1 =
      acc.1 ++ tools.map (genericToolResource serverName) := by
  induction tools generalizing acc with
  | nil => simp
  | cons t ts ih =>
    have h1 : (t.name == "calculator") = false := by
      simp only [beq_eq_false_iff_ne, ne_eq]
      exact hnocalc t (by simp)
    have h2 : (acc.1.any (fun x => x.uri == (genericToolResource serverName t).uri)) = false := by
      rw [List.any_eq_false]
      intro r hr
      simp only [beq_iff_eq]
      exact hfresh t (by simp) r hr
    rw [List.foldl_cons, h1]
    simp only [Bool.false_eq_true, if_false]
    rw [insertResourceIfNew, h2]
    simp only [Bool.false_eq_true, if_false]
    rw [ih]
    · simp
    · intro t' ht'
      exact hnocalc t' (by simp [ht'])
    · intro t' ht' r hr
      simp only at hr
      rcases List.mem_append.mp hr with hin | hin
      · exact hfresh t' (by simp [ht']) r hin
      · have : r = genericToolResource serverName t := by simpa using hin
        subst this
        intro hx
        have hnames : t.name = t'.name := genericToolResource_uri_injective serverName t t' hx
        have : t.name ∉ ts.map Tool.name := (List.nodup_cons.mp hnodup).1
        exact this (hnames ▸ List.mem_map_of_mem Tool.name ht')
    · exact (List.nodup_cons.mp hnodup).2

/-- C5: a connection reporting zero real resources and N tools with pairwise
distinct names, none named `calculator` or `weather`, synthesizes exactly the
N generic per-tool resources, in tool order, with URI
`mcp://{server}/synthetic/tool/{toolName}` each, and the N URIs are pairwise
distinct. -/
theorem synthesize_fallback_generic (serverName : String) (isN8n : Bool) (tools : List Tool)
    (templates : List ResourceTemplate)
    (hnodup : (tools.map Tool.name).Nodup)
    (hnames : ∀ t ∈ tools, ¬ t.name = "calculator" ∧ ¬ t.name = "weather") :
    (synthesizeResources serverName isN8n tools [] templates).1 =
      tools.map (genericToolResource serverName) ∧
    (synthesizeResources serverName isN8n tools [] templates).1.length = tools.length ∧
    ((synthesizeResources serverName isN8n tools [] templates).1.map Resource.uri).Nodup := by
  have hcalc : (tools.any (fun t => t.name == "calculator")) = false := by
    rw [List.any_eq_false]
    intro t ht
    simp only [beq_iff_eq]
    exact (hnames t ht).1
  have hweather : (tools.any (fun t => t.name == "weather")) = false := by
    rw [List.any_eq_false]
    intro t ht
    simp only [beq_iff_eq]
    exact (hnames t ht).2
  have hmain : (synthesizeResources serverName isN8n tools [] templates).1 =
      tools.map (genericToolResource serverName) := by
    unfold synthesizeResources
    simp only [List.length_nil, beq_self_eq_true, Bool.or_true, if_true, hcalc, hweather,
      Bool.false_eq_true, if_false]
    rw [genericPass_resources serverName tools ([], templates)
      (fun t ht => (hnames t ht).1) (fun t _ r hr => absurd hr (List.not_mem_nil r)) hnodup]
    simp
  refine ⟨hmain, ?_, ?_⟩
  · rw [hmain, List.length_map]
  · rw [hmain, List.map_map]
    have hcomp : (Resource.uri ∘ genericToolResource serverName) =
        fun t => ("mcp://" ++ serverName ++ "/synthetic/tool/") ++ t.name := rfl
    rw [hcomp]
    have hsplit : tools.map (fun t => ("mcp://" ++ serverName ++ "/synthetic/tool/") ++ t.name) =
        (tools.map Tool.name).map
          (fun s => ("mcp://" ++ serverName ++ "/synthetic/tool/") ++ s) := by
      rw [List.map_map]
      rfl
    rw [hsplit]
    exact List.Nodup.map (fun a b h => strAppend_left_cancel _ a b h) hnodup

/-- A sample tool named `alpha`. -/
def toolAlpha : Tool := { name := "alpha" }

/-- A sample tool named `beta`. -/
def toolBeta : Tool := { name := "beta" }

/-- C5 witness: two distinct non-special tools and no real resources give
exactly the two generic resources with distinct URIs. -/
theorem synthesize_fallback_generic_witness :
    (synthesizeResources "srv" false [toolAlpha, toolBeta] [] []).1 =
      [toolAlpha, toolBeta].map (genericToolResource "srv") ∧
    (synthesizeResources "srv" false [toolAlpha, toolBeta] [] []).1.length = 2 ∧
    ((synthesizeResources "srv" false [toolAlpha, toolBeta] [] []).1.map Resource.uri).Nodup := by
  have h := synthesize_fallback_generic "srv" false [toolAlpha, toolBeta] []
    (by decide)
    (by
      intro t ht
      rcases List.mem_cons.mp ht with rfl | ht2
      · exact ⟨by decide, by decide⟩
      · rcases List.mem_cons.mp ht2 with rfl | ht3
        · exact ⟨by decide, by decide⟩
        · exact absurd ht3 (List.not_mem_nil t))
  exact ⟨h.1, h.2.1, h.2.2⟩

/-! ## C7: ordering of the synthesized resource list -/

/-- Whether a resource is one of the two fixed special entries. -/
def isSpecialRes (r : Resource) : Bool :=
  r.uri == calculatorResource.uri || r.uri == weatherResource.uri

/-- Whether a resource is a generic per-tool entry for the given server. -/
def isGenericRes (serverName : String) (r : Resource) : Bool :=
  jsStartsWith r.uri ("mcp://" ++ serverName ++ "/synthetic/tool/")

/-- The ordering the claim asserts: every calculator/weather special entry
precedes every generic per-tool entry. -/
def specialsBeforeGenerics (serverName : String) (rs : List Resource) : Prop :=
  ∀ i j, (hi : i < rs.length) → (hj : j < rs.length) →
    isSpecialRes (rs.get ⟨i, hi⟩) = true →
    isGenericRes serverName (rs.get ⟨j, hj⟩) = true →
    i < j

/-- A weather-named tool. -/
def weatherTool : Tool := { name := "weather" }

/-- C7 counterexample: with zero real resources and tools `weather`, `alpha`,
the synthesized list is generic-weather, generic-alpha, then the weather
special entry — the special entries come last, after the generic ones, so the
claimed order (specials before generics) fails. -/
theorem synthesize_order_claim_counterexample :
    (synthesizeResources "srv" false [weatherTool, toolAlpha] [] []).1 =
      [genericToolResource "srv" weatherTool, genericToolResource "srv" toolAlpha,
       weatherResource] ∧
    ¬ specialsBeforeGenerics "srv" (synthesizeResources "srv" false [weatherTool, toolAlpha] [] []).1 := by
  refine ⟨rfl, ?_⟩
  intro h
  exact absurd (h 2 0 (by decide) (by decide) (by decide) (by decide)) (by decide)

/-- The generic resources actually appended by the per-tool pass, given the
resources already `seen` (the dedup context). -/
def genericAppended (serverName : String) (tools : List Tool) (seen : List Resource) :
    List Resource :=
  match tools with
  | [] => []
  | t :: ts =>
    if t.name == "calculator" then genericAppended serverName ts seen
    else
      let r := genericToolResource serverName t
      if seen.any (fun x => x.uri == r.uri) then genericAppended serverName ts seen
      else r :: genericAppended serverName ts (seen ++ [r])

/-- The generic pass grows the accumulated resource list by exactly
`genericAppended`, at the end. -/
theorem genericPass_append (serverName : String) (tools : List Tool)
    (acc : List Resource × List ResourceTemplate) :
    (tools.foldl
      (fun acc tool =>
        if tool.name == "calculator" then acc
        else
          (insertResourceIfNew acc.1 (genericToolResource serverName tool),
           insertTemplateIfNew acc.2 (genericToolTemplate serverName tool)))
      acc).1 =
      acc.1 ++ genericAppended serverName tools acc.1 := by
  induction tools generalizing acc with
  | nil => simp [genericAppended]
  | cons t ts ih =>
    rw [List.foldl_cons]
    by_cases hc : (t.name == "calculator") = true
    · rw [if_pos hc]
      unfold genericAppended
      rw [if_pos hc, ih]
    · rw [if_neg hc]
      unfold genericAppended
      rw [if_neg hc]
      by_cases hseen : (acc.1.any (fun x => x.uri == (genericToolResource serverName t).uri)) = true
      · rw [if_pos hseen]
        have hins : insertResourceIfNew acc.1 (genericToolResource serverName t) = acc.1 := by
          rw [insertResourceIfNew, if_pos hseen]
        rw [show (insertResourceIfNew acc.1 (genericToolResource serverName t),
              insertTemplateIfNew acc.2 (genericToolTemplate serverName t)) =
            (acc.1, insertTemplateIfNew acc.2 (genericToolTemplate serverName t)) by rw [hins]]
        exact ih (acc.1, insertTemplateIfNew acc.2 (genericToolTemplate serverName t))
      · rw [if_neg hseen]
        have hins : insertResourceIfNew acc.1 (genericToolResource serverName t) =
            acc.1 ++ [genericToolResource serverName t] := by
          rw [insertResourceIfNew, if_neg hseen]
        rw [show (insertResourceIfNew acc.1 (genericToolResource serverName t),
              insertTemplateIfNew acc.2 (genericToolTemplate serverName t)) =
            (acc.1 ++ [genericToolResource serverName t],
             insertTemplateIfNew acc.2 (genericToolTemplate serverName t)) by rw [hins]]
        rw [ih]
        simp

/-- The special calculator/weather entries actually appended after the generic
pass, given the resources already `seen`. -/
def specialAppended (tools : List Tool) (seen : List Resource) : List Resource :=
  let calcPart :=
    if tools.any (fun t => t.name == "calculator") &&
        !(seen.any (fun x => x.uri == calculatorResource.uri)) then
      [calculatorResource]
    else []
  calcPart ++
    (if tools.any (fun t => t.name == "weather") &&
        !((seen ++ calcPart).any (fun x => x.uri == weatherResource.uri)) then
      [weatherResource]
    else [])

/-- The generic part of the synthesized resource list: present only when the
server is an n8n server or reported zero real resources. -/
def genericPartOf (serverName : String) (isN8n : Bool) (tools : List Tool)
    (actualResources : List Resource) : List Resource :=
  if isN8n || actualResources.length == 0 then
    genericAppended serverName tools actualResources
  else []

/-- Every appended generic entry is the generic resource of some
non-calculator tool. -/
theorem genericAppended_mem (serverName : String) (tools : List Tool) (seen : List Resource)
    (r : Resource) (hr : r ∈ genericAppended serverName tools seen) :
    ∃ t, t ∈ tools ∧ r = genericToolResource serverName t ∧ ¬ t.name = "calculator" := by
  induction tools generalizing seen with
  | nil => exact absurd hr (by simp [genericAppended])
  | cons t ts ih =>
    unfold genericAppended at hr
    by_cases hc : (t.name == "calculator") = true
    · rw [if_pos hc] at hr
      obtain ⟨u, hu, he, hn⟩ := ih seen hr
      exact ⟨u, by simp [hu], he, hn⟩
    · rw [if_neg hc] at hr
      by_cases hseen : (seen.any (fun x => x.uri == (genericToolResource serverName t).uri)) = true
      · rw [if_pos hseen] at hr
        obtain ⟨u, hu, he, hn⟩ := ih seen hr
        exact ⟨u, by simp [hu], he, hn⟩
      · rw [if_neg hseen] at hr
        rcases List.mem_cons.mp hr with rfl | hr2
        · exact ⟨t, by simp, rfl, by simpa using hc⟩
        · obtain ⟨u, hu, he, hn⟩ := ih (seen ++ [genericToolResource serverName t]) hr2
          exact ⟨u, by simp [hu], he, hn⟩

/-- Membership in a conditional singleton list forces equality. -/
theorem mem_ite_singleton {α : Type} {P : Prop} [Decidable P] {r x : α}
    (h : r ∈ (if P then [x] else [])) : r = x := by
  split at h
  · simpa using h
  · exact absurd h (List.not_mem_nil r)

/-- Every appended special entry is the calculator or the weather special. -/
theorem specialAppended_mem (tools : List Tool) (seen : List Resource) (r : Resource)
    (hr : r ∈ specialAppended tools seen) :
    r = calculatorResource ∨ r = weatherResource := by
  unfold specialAppended at hr
  rcases List.mem_append.mp hr with h | h
  · exact Or.inl (mem_ite_singleton h)
  · exact Or.inr (mem_ite_singleton h)

/-- The calculator-special stage appends its (possibly deduplicated) entry at
the end of the resource component. -/
theorem calcStage_fst (tools : List Tool) (p : List Resource × List ResourceTemplate) :
    (if tools.any (fun t => t.name == "calculator") then
       (insertResourceIfNew p.1 calculatorResource,
        insertTemplateIfNew p.2 calculatorResourceTemplate)
     else p).1 =
      p.1 ++ (if tools.any (fun t => t.name == "calculator") &&
          !(p.1.any (fun x => x.uri == calculatorResource.uri)) then
        [calculatorResource] else []) := by
  by_cases h : (tools.any (fun t => t.name == "calculator")) = true
  · rw [if_pos h]
    by_cases h2 : (p.1.any (fun x => x.uri == calculatorResource.uri)) = true
    · simp [insertResourceIfNew, h, h2]
    · simp [insertResourceIfNew, h, h2]
  · simp [h]

/-- The weather-special stage appends its (possibly deduplicated) entry at the
end of the resource component. -/
theorem weatherStage_fst (tools : List Tool) (p : List Resource × List ResourceTemplate) :
    (if tools.any (fun t => t.name == "weather") then
       (insertResourceIfNew p.1 weatherResource,
        insertTemplateIfNew p.2 weatherResourceTemplate)
     else p).1 =
      p.1 ++ (if tools.any (fun t => t.name == "weather") &&
          !(p.1.any (fun x => x.uri == weatherResource.uri)) then
        [weatherResource] else []) := by
  by_cases h : (tools.any (fun t => t.name == "weather")) = true
  · rw [if_pos h]
    by_cases h2 : (p.1.any (fun x => x.uri == weatherResource.uri)) = true
    · simp [insertResourceIfNew, h, h2]
    · simp [insertResourceIfNew, h, h2]
  · simp [h]

/-- C7 amended: the final synthesized resource list is in insertion order with
the real resources first, then the generic per-tool entries (present only when
the server is an n8n server or reported zero real resources), and the
calculator/weather special entries last. -/
theorem synthesizeResources_order (serverName : String) (isN8n : Bool) (tools : List Tool)
    (actualResources : List Resource) (actualTemplates : List ResourceTemplate) :
    (synthesizeResources serverName isN8n tools actualResources actualTemplates).1 =
      actualResources ++ genericPartOf serverName isN8n tools actualResources ++
        specialAppended tools
          (actualResources ++ genericPartOf serverName isN8n tools actualResources) ∧
    (∀ r ∈ genericPartOf serverName isN8n tools actualResources,
      ∃ t, t ∈ tools ∧ r = genericToolResource serverName t ∧ ¬ t.name = "calculator") ∧
    (∀ r ∈ specialAppended tools
        (actualResources ++ genericPartOf serverName isN8n tools actualResources),
      r = calculatorResource ∨ r = weatherResource) := by
  refine ⟨?_, ?_, ?_⟩
  · unfold synthesizeResources
    simp only []
    by_cases h1 : (isN8n || actualResources.length == 0) = true
    · have hgp : genericPartOf serverName isN8n tools actualResources =
          genericAppended serverName tools actualResources := by
        rw [genericPartOf, if_pos h1]
      rw [if_pos h1, weatherStage_fst, calcStage_fst, genericPass_append, hgp]
      simp [specialAppended, List.append_assoc]
    · have hgp : genericPartOf serverName isN8n tools actualResources = [] := by
        rw [genericPartOf, if_neg h1]
      rw [if_neg h1, weatherStage_fst, calcStage_fst, hgp]
      simp only [specialAppended, List.append_nil, List.append_assoc]
  · intro r hr
    unfold genericPartOf at hr
    split at hr
    · exact genericAppended_mem serverName tools actualResources r hr
    · exact absurd hr (List.not_mem_nil r)
  · intro r hr
    exact specialAppended_mem tools _ r hr

/-- C7 witness: the amended ordering decomposition evaluated on the
counterexample's input. -/
theorem synthesizeResources_order_witness :
    (synthesizeResources "srv" false [weatherTool, toolAlpha] [] []).1 =
      [] ++ genericPartOf "srv" false [weatherTool, toolAlpha] [] ++
        specialAppended [weatherTool, toolAlpha]
          ([] ++ genericPartOf "srv" false [weatherTool, toolAlpha] []) :=
  (synthesizeResources_order "srv" false [weatherTool, toolAlpha] [] []).1

/-! ## C4: reconciliation idempotence -/

/-- Removing a name that is not present changes nothing. -/
theorem removeConn_of_not_found (conns : List McpConnection) (name : String)
    (h : findConn conns name = none) : removeConn conns name = conns := by
  rw [removeConn, List.filter_eq_self]
  intro c hc
  have := List.find?_eq_none.mp h c hc
  simpa using this

/-- The state component of `deleteConnection` is always the filtered list. -/
theorem deleteConnection_fst (conns : List McpConnection) (name : String) :
    (deleteConnection conns name).1 = removeConn conns name := by
  unfold deleteConnection
  rcases h : findConn conns name with _ | c
  · exact (removeConn_of_not_found conns name h).symm
  · rfl

/-- A removed name is no longer findable. -/
theorem findConn_removeConn_self (conns : List McpConnection) (name : String) :
    findConn (removeConn conns name) name = none := by
  rw [findConn, List.find?_eq_none]
  intro c hc
  have := List.of_mem_filter hc
  simpa using this

/-- Lookup on a cons whose head matches. -/
theorem findConn_cons_self (c : McpConnection) (rest : List McpConnection) (m : String)
    (h : (c.server.name == m) = true) : findConn (c :: rest) m = some c := by
  simp [findConn, List.find?_cons, h]

/-- Lookup on a cons whose head does not match. -/
theorem findConn_cons_ne (c : McpConnection) (rest : List McpConnection) (m : String)
    (h : (c.server.name == m) = false) : findConn (c :: rest) m = findConn rest m := by
  simp [findConn, List.find?_cons, h]

/-- Removing one name leaves lookups of any other name unchanged. -/
theorem findConn_removeConn_ne (conns : List McpConnection) (name m : String)
    (hne : m ≠ name) : findConn (removeConn conns name) m = findConn conns m := by
  induction conns with
  | nil => rfl
  | cons c rest ih =>
    by_cases hc : (c.server.name == name) = true
    · have h1 : removeConn (c :: rest) name = removeConn rest name := by
        simp [removeConn, List.filter_cons, hc]
      have hcn : c.server.name = name := by simpa using hc
      have h2 : (c.server.name == m) = false := by
        rw [hcn, beq_eq_false_iff_ne]
        exact fun h => hne h.symm
      rw [h1, ih, findConn_cons_ne c rest m h2]
    · have h1 : removeConn (c :: rest) name = c :: removeConn rest name := by
        simp [removeConn, List.filter_cons, hc]
      rw [h1]
      by_cases hm : (c.server.name == m) = true
      · rw [findConn_cons_self c (removeConn rest name) m hm, findConn_cons_self c rest m hm]
      · have hm2 : (c.server.name == m) = false := by simpa using hm
        rw [findConn_cons_ne c (removeConn rest name) m hm2, findConn_cons_ne c rest m hm2, ih]

/-- After `connectToServer`, the connection stored under the connected name
(when any) carries the serialized form of the new config; it is absent exactly
when the transport build failed. -/
theorem connectToServer_findConn_self (env : ConnectEnv) (cs : List McpConnection)
    (name : String) (config : McpServerConfig) :
    (findConn (connectToServer env cs name config).1 name = none ∧
      ∃ m, env.connect name config = ConnectOutcome.buildFailed m) ∨
    (∃ c, findConn (connectToServer env cs name config).1 name = some c ∧
      c.server.config = stringifyConfig config) := by
  unfold connectToServer
  rcases h : env.connect name config with m | m | ⟨tools, resources, templates⟩
  · exact Or.inl ⟨findConn_removeConn_self cs name, m, rfl⟩
  · right
    refine ⟨failedConn name config m, ?_, rfl⟩
    rw [findConn, List.find?_append]
    rw [show List.find? (fun c => c.server.name == name) (removeConn cs name) = none from
      findConn_removeConn_self cs name]
    simp [List.find?_cons, failedConn]
  · right
    refine ⟨okConn name config tools resources templates, ?_, rfl⟩
    rw [findConn, List.find?_append]
    rw [show List.find? (fun c => c.server.name == name) (removeConn cs name) = none from
      findConn_removeConn_self cs name]
    simp [List.find?_cons, okConn]

/-- `connectToServer` does not disturb connections stored under other names. -/
theorem connectToServer_findConn_other (env : ConnectEnv) (cs : List McpConnection)
    (name : String) (config : McpServerConfig) (m : String) (hne : m ≠ name) :
    findConn (connectToServer env cs name config).1 m = findConn cs m := by
  have hbeq : (name == m) = false := beq_eq_false_iff_ne.mpr (fun h => hne h.symm)
  unfold connectToServer
  rcases h : env.connect name config with msg | msg | ⟨tools, resources, templates⟩
  · exact findConn_removeConn_ne cs name m hne
  · rw [findConn, List.find?_append]
    rw [show List.find? (fun c => c.server.name == m) (removeConn cs name) =
        findConn (removeConn cs name) m from rfl]
    rw [findConn_removeConn_ne cs name m hne]
    simp [List.find?_cons, hbeq, failedConn]
  · rw [findConn, List.find?_append]
    rw [show List.find? (fun c => c.server.name == m) (removeConn cs name) =
        findConn (removeConn cs name) m from rfl]
    rw [findConn_removeConn_ne cs name m hne]
    simp [List.find?_cons, hbeq, okConn]

/-- `connectToServer` reports exactly one connect-started event. -/
theorem connectToServer_snd (env : ConnectEnv) (cs : List McpConnection)
    (name : String) (config : McpServerConfig) :
    (connectToServer env cs name config).2 = [Event.connectStarted name] := by
  unfold connectToServer
  rcases env.connect name config with m | m | ⟨tools, resources, templates⟩ <;> rfl

/-- Every connection after `connectToServer` either was already present or
carries the connected name. -/
theorem connectToServer_mem (env : ConnectEnv) (cs : List McpConnection)
    (name : String) (config : McpServerConfig) :
    ∀ c ∈ (connectToServer env cs name config).1, c ∈ cs ∨ c.server.name = name := by
  unfold connectToServer
  rcases h : env.connect name config with m | m | ⟨tools, resources, templates⟩ <;>
    intro c hc <;> simp only [] at hc
  · exact Or.inl (List.mem_of_mem_filter hc)
  · rcases List.mem_append.mp hc with h1 | h1
    · exact Or.inl (List.mem_of_mem_filter h1)
    · right
      have hcl := List.mem_singleton.mp h1
      rw [hcl]
      rfl
  · rcases List.mem_append.mp hc with h1 | h1
    · exact Or.inl (List.mem_of_mem_filter h1)
    · right
      have hcl := List.mem_singleton.mp h1
      rw [hcl]
      rfl

/-- The invariant a completed reconciliation run establishes per configured
entry: either a connection with the entry's name is stored and its serialized
config is the entry's, or none is stored and the environment fails that
entry's transport build. -/
def Settled (env : ConnectEnv) (s : List McpConnection)
    (entry : String × McpServerConfig) : Prop :=
  match findConn s entry.1 with
  | some c => c.server.config = stringifyConfig entry.2
  | none => ∃ m, env.connect entry.1 entry.2 = ConnectOutcome.buildFailed m

/-- `Settled` only depends on the lookup at the entry's name. -/
theorem Settled_congr (env : ConnectEnv) (s s2 : List McpConnection)
    (entry : String × McpServerConfig)
    (h : findConn s entry.1 = findConn s2 entry.1) (hs : Settled env s entry) :
    Settled env s2 entry := by
  unfold Settled at hs ⊢
  rw [← h]
  exact hs

/-- One reconcile step leaves lookups of other names unchanged. -/
theorem reconcileStep_other (env : ConnectEnv) (acc : List McpConnection × List Event)
    (entry : String × McpServerConfig) (m : String) (hne : m ≠ entry.1) :
    findConn (reconcileStep env acc entry).1 m = findConn acc.1 m := by
  unfold reconcileStep
  rcases hf : findConn acc.1 entry.1 with _ | cc
  · exact connectToServer_findConn_other env acc.1 entry.1 entry.2 m hne
  · simp only []
    by_cases hcfg : stringifyConfig entry.2 ≠ cc.server.config
    · rw [if_pos hcfg]
      rw [show ((connectToServer env (deleteConnection acc.1 entry.1).1 entry.1 entry.2).1,
          acc.2 ++ (deleteConnection acc.1 entry.1).2 ++
            (connectToServer env (deleteConnection acc.1 entry.1).1 entry.1 entry.2).2).1 =
        (connectToServer env (deleteConnection acc.1 entry.1).1 entry.1 entry.2).1 from rfl]
      rw [connectToServer_findConn_other env _ entry.1 entry.2 m hne, deleteConnection_fst]
      exact findConn_removeConn_ne acc.1 entry.1 m hne
    · rw [if_neg hcfg]

/-- One reconcile step settles its own entry. -/
theorem reconcileStep_settles (env : ConnectEnv) (acc : List McpConnection × List Event)
    (entry : String × McpServerConfig) :
    Settled env (reconcileStep env acc entry).1 entry := by
  unfold reconcileStep
  rcases hf : findConn acc.1 entry.1 with _ | cc
  · unfold Settled
    rcases connectToServer_findConn_self env acc.1 entry.1 entry.2 with ⟨hn, m, hm⟩ | ⟨c, hs, hc⟩
    · rw [hn]
      exact ⟨m, hm⟩
    · rw [hs]
      exact hc
  · simp only []
    by_cases hcfg : stringifyConfig entry.2 ≠ cc.server.config
    · rw [if_pos hcfg]
      unfold Settled
      rcases connectToServer_findConn_self env (deleteConnection acc.1 entry.1).1 entry.1 entry.2
          with ⟨hn, m, hm⟩ | ⟨c, hs, hc⟩
      · rw [show ((connectToServer env (deleteConnection acc.1 entry.1).1 entry.1 entry.2).1,
            acc.2 ++ (deleteConnection acc.1 entry.1).2 ++
              (connectToServer env (deleteConnection acc.1 entry.1).1 entry.1 entry.2).2).1 =
          (connectToServer env (deleteConnection acc.1 entry.1).1 entry.1 entry.2).1 from rfl]
        rw [hn]
        exact ⟨m, hm⟩
      · rw [show ((connectToServer env (deleteConnection acc.1 entry.1).1 entry.1 entry.2).1,
            acc.2 ++ (deleteConnection acc.1 entry.1).2 ++
              (connectToServer env (deleteConnection acc.1 entry.1).1 entry.1 entry.2).2).1 =
          (connectToServer env (deleteConnection acc.1 entry.1).1 entry.1 entry.2).1 from rfl]
        rw [hs]
        exact hc
    · rw [if_neg hcfg]
      unfold Settled
      rw [hf]
      exact (not_ne_iff.mp hcfg).symm

/-- One reconcile step only keeps existing connections or adds one under the
entry's name. -/
theorem reconcileStep_mem (env : ConnectEnv) (acc : List McpConnection × List Event)
    (entry : String × McpServerConfig) :
    ∀ c ∈ (reconcileStep env acc entry).1, c ∈ acc.1 ∨ c.server.name = entry.1 := by
  unfold reconcileStep
  rcases hf : findConn acc.1 entry.1 with _ | cc
  · intro c hc
    exact connectToServer_mem env acc.1 entry.1 entry.2 c hc
  · simp only []
    by_cases hcfg : stringifyConfig entry.2 ≠ cc.server.config
    · rw [if_pos hcfg]
      intro c hc
      rcases connectToServer_mem env (deleteConnection acc.1 entry.1).1 entry.1 entry.2 c hc
          with h | h
      · rw [deleteConnection_fst] at h
        exact Or.inl (List.mem_of_mem_filter h)
      · exact Or.inr h
    · rw [if_neg hcfg]
      intro c hc
      exact Or.inl hc

/-- Folding reconcile steps over entries whose names all differ from `m`
leaves the lookup at `m` unchanged. -/
theorem reconcileFold_preserves (env : ConnectEnv) (entries : List (String × McpServerConfig))
    (acc : List McpConnection × List Event) (m : String)
    (hne : ∀ e ∈ entries, m ≠ e.1) :
    findConn ((entries.foldl (reconcileStep env) acc).1) m = findConn acc.1 m := by
  induction entries generalizing acc with
  | nil => rfl
  | cons hd tl ih =>
    rw [List.foldl_cons, ih (reconcileStep env acc hd) (fun e he => hne e (by simp [he]))]
    exact reconcileStep_other env acc hd m (hne hd (by simp))

/-- After folding the reconcile steps, every entry with a name distinct from
all the other entries' names is settled. -/
theorem reconcileFold_settles (env : ConnectEnv) (entries : List (String × McpServerConfig))
    (acc : List McpConnection × List Event)
    (hnodup : (entries.map Prod.fst).Nodup) :
    ∀ e ∈ entries, Settled env ((entries.foldl (reconcileStep env) acc).1) e := by
  induction entries generalizing acc with
  | nil =>
    intro e he
    exact absurd he (List.not_mem_nil e)
  | cons hd tl ih =>
    intro e he
    rcases List.mem_cons.mp he with rfl | hin
    · rw [List.foldl_cons]
      have hnotin : e.1 ∉ tl.map Prod.fst := by
        have := (List.nodup_cons.mp hnodup).1
        simpa using this
      have hpres : findConn ((tl.foldl (reconcileStep env) (reconcileStep env acc e)).1) e.1 =
          findConn ((reconcileStep env acc e).1) e.1 := by
        apply reconcileFold_preserves
        intro e2 he2 heq
        exact hnotin (heq ▸ List.mem_map_of_mem Prod.fst he2)
      exact Settled_congr env _ _ e hpres.symm (reconcileStep_settles env acc e)
    · rw [List.foldl_cons]
      exact ih (reconcileStep env acc hd) (List.nodup_cons.mp hnodup).2 e hin

/-- Every connection after the reconcile fold was in the starting state or
carries a configured name. -/
theorem reconcileFold_names (env : ConnectEnv) (entries : List (String × McpServerConfig))
    (acc : List McpConnection × List Event) :
    ∀ c ∈ (entries.foldl (reconcileStep env) acc).1,
      c ∈ acc.1 ∨ c.server.name ∈ entries.map Prod.fst := by
  induction entries generalizing acc with
  | nil =>
    intro c hc
    exact Or.inl hc
  | cons hd tl ih =>
    intro c hc
    rw [List.foldl_cons] at hc
    rcases ih (reconcileStep env acc hd) c hc with h | h
    · rcases reconcileStep_mem env acc hd c h with h2 | h2
      · exact Or.inl h2
      · exact Or.inr (by simp [h2])
    · exact Or.inr (by simp [h])

/-- Folding reconcile steps over a state in which every entry is settled
changes nothing and starts connects only for names with no stored
connection. -/
theorem reconcileFold_steady (env : ConnectEnv) (entries : List (String × McpServerConfig))
    (s : List McpConnection) (es : List Event)
    (hset : ∀ e ∈ entries, Settled env s e) :
    (entries.foldl (reconcileStep env) (s, es)).1 = s ∧
    (∀ ev ∈ (entries.foldl (reconcileStep env) (s, es)).2,
      ev ∈ es ∨ ∃ n, ev = Event.connectStarted n ∧ findConn s n = none) := by
  induction entries generalizing es with
  | nil =>
    exact ⟨rfl, fun ev hev => Or.inl hev⟩
  | cons hd tl ih =>
    have hsethd := hset hd (by simp)
    unfold Settled at hsethd
    rcases hf : findConn s hd.1 with _ | cc
    · rw [hf] at hsethd
      obtain ⟨m, hm⟩ := hsethd
      have hstep : reconcileStep env (s, es) hd = (s, es ++ [Event.connectStarted hd.1]) := by
        unfold reconcileStep
        rw [show ((s, es) : List McpConnection × List Event).1 = s from rfl, hf]
        simp only []
        have hfst : (connectToServer env s hd.1 hd.2).1 = removeConn s hd.1 := by
          unfold connectToServer
          rw [hm]
        rw [hfst, removeConn_of_not_found s hd.1 hf, connectToServer_snd]
      rw [List.foldl_cons, hstep]
      have hrec := ih (es ++ [Event.connectStarted hd.1])
        (fun e he => hset e (by simp [he]))
      refine ⟨hrec.1, ?_⟩
      intro ev hev
      rcases hrec.2 ev hev with h | h
      · rcases List.mem_append.mp h with h2 | h2
        · exact Or.inl h2
        · refine Or.inr ⟨hd.1, ?_, hf⟩
          simpa using h2
      · exact Or.inr h
    · rw [hf] at hsethd
      have hstep : reconcileStep env (s, es) hd = (s, es) := by
        unfold reconcileStep
        rw [show ((s, es) : List McpConnection × List Event).1 = s from rfl, hf]
        simp only []
        rw [if_neg (not_ne_iff.mpr hsethd.symm)]
      rw [List.foldl_cons, hstep]
      exact ih es (fun e he => hset e (by simp [he]))

/-- The deletion loop is the identity when every iterated name is still
configured. -/
theorem removalFold_id (newNames names : List String) (acc : List McpConnection × List Event)
    (h : ∀ n ∈ names, newNames.contains n = true) :
    names.foldl (removalStep newNames) acc = acc := by
  induction names generalizing acc with
  | nil => rfl
  | cons n rest ih =>
    rw [List.foldl_cons]
    rw [show removalStep newNames acc n = acc from by
      unfold removalStep
      rw [if_pos (h n (by simp))]]
    exact ih acc (fun n2 h2 => h n2 (by simp [h2]))

/-- Every survivor of the deletion loop was already present, and its name is
still configured unless it was never iterated over. -/
theorem removalFold_mem (newNames names : List String) (acc : List McpConnection × List Event) :
    ∀ c ∈ (names.foldl (removalStep newNames) acc).1,
      c ∈ acc.1 ∧ (newNames.contains c.server.name = true ∨
        names.contains c.server.name = false) := by
  induction names generalizing acc with
  | nil =>
    intro c hc
    exact ⟨hc, Or.inr rfl⟩
  | cons n rest ih =>
    intro c hc
    rw [List.foldl_cons] at hc
    by_cases hn : newNames.contains n = true
    · rw [show removalStep newNames acc n = acc from by
        unfold removalStep
        rw [if_pos hn]] at hc
      obtain ⟨hmem, hdisj⟩ := ih acc c hc
      refine ⟨hmem, ?_⟩
      rcases hdisj with h | h
      · exact Or.inl h
      · by_cases he : c.server.name = n
        · exact Or.inl (he ▸ hn)
        · refine Or.inr ?_
          simp only [List.contains_cons, Bool.or_eq_false_iff]
          exact ⟨beq_eq_false_iff_ne.mpr he, h⟩
    · rw [show removalStep newNames acc n = ((deleteConnection acc.1 n).1, acc.2 ++ (deleteConnection acc.1 n).2) from by
        unfold removalStep
        rw [if_neg hn]] at hc
      obtain ⟨hmem, hdisj⟩ := ih _ c hc
      rw [deleteConnection_fst] at hmem
      have hne : (c.server.name == n) = false := by
        have := List.of_mem_filter hmem
        simpa using this
      have hmem2 : c ∈ acc.1 := List.mem_of_mem_filter hmem
      refine ⟨hmem2, ?_⟩
      rcases hdisj with h | h
      · exact Or.inl h
      · refine Or.inr ?_
        simp only [List.contains_cons, Bool.or_eq_false_iff]
        exact ⟨hne, h⟩

/-- Every survivor of the deletion phase was already present and bears a name
that is still configured. -/
theorem deleteRemoved_sub (conns : List McpConnection) (newNames : List String) :
    ∀ c ∈ (deleteRemoved conns newNames).1,
      c ∈ conns ∧ newNames.contains c.server.name = true := by
  intro c hc
  have hc2 : c ∈ ((conns.map (fun c => c.server.name)).foldl
      (removalStep newNames) (conns, [])).1 := hc
  obtain ⟨hmem, hdisj⟩ :=
    removalFold_mem newNames (conns.map (fun c => c.server.name)) (conns, []) c hc2
  have hmem2 : c ∈ conns := hmem
  refine ⟨hmem2, ?_⟩
  rcases hdisj with h | h
  · exact h
  · have hin : c.server.name ∈ conns.map (fun c => c.server.name) :=
      List.mem_map_of_mem (fun c => c.server.name) hmem2
    have htrue : (conns.map (fun c => c.server.name)).contains c.server.name = true :=
      List.elem_iff.mpr hin
    rw [h] at htrue
    exact absurd htrue Bool.false_ne_true

/-- C4: reconciliation is idempotent.  Running `updateServerConnections`
again, immediately after a completed run with the same configuration map (with
its record keys pairwise distinct, as JavaScript guarantees), leaves the
connection set — names and stored serialized configs — unchanged, and the
second run neither deletes nor reconnects any stored connection (its serialized
config matches the stored one, so the delete-and-recreate branch is never
taken for it). -/
theorem updateServerConnections_idempotent (env : ConnectEnv) (conns0 : List McpConnection)
    (cfg : List (String × McpServerConfig)) (hnodup : (cfg.map Prod.fst).Nodup) :
    (updateServerConnections env (updateServerConnections env conns0 cfg).1 cfg).1 =
      (updateServerConnections env conns0 cfg).1 ∧
    ∀ c ∈ (updateServerConnections env conns0 cfg).1,
      Event.deleted c.server.name ∉
        (updateServerConnections env (updateServerConnections env conns0 cfg).1 cfg).2 ∧
      Event.connectStarted c.server.name ∉
        (updateServerConnections env (updateServerConnections env conns0 cfg).1 cfg).2 := by
  have hset : ∀ e ∈ cfg, Settled env (updateServerConnections env conns0 cfg).1 e :=
    reconcileFold_settles env cfg (deleteRemoved conns0 (cfg.map Prod.fst)) hnodup
  have hnames : ∀ c ∈ (updateServerConnections env conns0 cfg).1,
      (cfg.map Prod.fst).contains c.server.name = true := by
    intro c hc
    rcases reconcileFold_names env cfg (deleteRemoved conns0 (cfg.map Prod.fst)) c hc
        with h | h
    · exact (deleteRemoved_sub conns0 (cfg.map Prod.fst) c h).2
    · exact List.elem_iff.mpr h
  have hphase1 : deleteRemoved (updateServerConnections env conns0 cfg).1 (cfg.map Prod.fst) =
      ((updateServerConnections env conns0 cfg).1, []) := by
    unfold deleteRemoved
    apply removalFold_id
    intro n hn
    rcases List.mem_map.mp hn with ⟨c, hc, rfl⟩
    exact hnames c hc
  have hrun2 : updateServerConnections env (updateServerConnections env conns0 cfg).1 cfg =
      cfg.foldl (reconcileStep env) ((updateServerConnections env conns0 cfg).1, []) :=
    calc updateServerConnections env (updateServerConnections env conns0 cfg).1 cfg
        = cfg.foldl (reconcileStep env)
            (deleteRemoved (updateServerConnections env conns0 cfg).1 (cfg.map Prod.fst)) := rfl
      _ = cfg.foldl (reconcileStep env) ((updateServerConnections env conns0 cfg).1, []) := by
          rw [hphase1]
  have hsteady := reconcileFold_steady env cfg (updateServerConnections env conns0 cfg).1 [] hset
  constructor
  · rw [hrun2]
    exact hsteady.1
  · intro c hc
    constructor
    · intro hev
      rw [hrun2] at hev
      rcases hsteady.2 _ hev with h | ⟨n, hn, hnone⟩
      · exact absurd h (List.not_mem_nil _)
      · exact Event.noConfusion hn
    · intro hev
      rw [hrun2] at hev
      rcases hsteady.2 _ hev with h | ⟨n, hn, hnone⟩
      · exact absurd h (List.not_mem_nil _)
      · injection hn with hn2
        have hsome : (findConn (updateServerConnections env conns0 cfg).1 c.server.name).isSome
            = true := by
          rw [findConn, List.find?_isSome]
          exact ⟨c, hc, by simp⟩
        rw [hn2, hnone] at hsome
        exact Bool.false_ne_true hsome

/-- An environment whose every connect attempt succeeds with no capabilities. -/
def connectEnvOk : ConnectEnv :=
  { connect := fun _ _ => ConnectOutcome.ok [] [] [] }

/-- C4 witness: the idempotence theorem evaluated on one concrete
configuration entry starting from the empty manager. -/
theorem updateServerConnections_idempotent_witness :
    (updateServerConnections connectEnvOk
        (updateServerConnections connectEnvOk [] [("n8n", cfgSseExample)]).1
        [("n8n", cfgSseExample)]).1 =
      (updateServerConnections connectEnvOk [] [("n8n", cfgSseExample)]).1 ∧
    ∀ c ∈ (updateServerConnections connectEnvOk [] [("n8n", cfgSseExample)]).1,
      Event.deleted c.server.name ∉
        (updateServerConnections connectEnvOk
          (updateServerConnections connectEnvOk [] [("n8n", cfgSseExample)]).1
          [("n8n", cfgSseExample)]).2 ∧
      Event.connectStarted c.server.name ∉
        (updateServerConnections connectEnvOk
          (updateServerConnections connectEnvOk [] [("n8n", cfgSseExample)]).1
          [("n8n", cfgSseExample)]).2 :=
  updateServerConnections_idempotent connectEnvOk [] [("n8n", cfgSseExample)] (by decide)
